import Mathlib

/-!
Shallow embedding of the chats/messages REST backend (src/index.js).

The server keeps a process-wide mutable value `data = { chats, messages }`.
Each Express handler is embedded as a pure function from the current store
(plus the parsed route parameters and JSON body) to a pair of the HTTP
response and the successor store.  Request-body fields are `Option`s:
`none` models a field absent from the JSON body (JS `undefined`), and the
JS truthiness test `!x` on the string-valued fields is `strTruthy`.
Record ids are natural numbers (every id the server itself assigns is a
positive integer); the `index` field of a chat is an integer since a
client may overwrite it with any number via PUT.  The `content` field of
a message is modelled as a string (the server never inspects it beyond
the truthiness check).
-/

namespace LiveCode

/-- A chat record, as stored in `data.chats`. -/
structure Chat where
  id : Nat
  index : Int
  name : String
  shared : Bool
deriving Repr, DecidableEq

/-- A message record, as stored in `data.messages`. -/
structure Message where
  id : Nat
  chat_id : Nat
  type : String
  author : String
  content : String
deriving Repr, DecidableEq

/-- The in-memory store `data` of src/index.js (lines 72-75). -/
structure Store where
  chats : List Chat
  messages : List Message
deriving Repr, DecidableEq

/-- Response bodies the handlers produce. -/
inductive Body where
  | chatB : Chat → Body
  | msgB : Message → Body
  | msgsB : List Message → Body
  | errB : String → Body
  | emptyB : Body
  | resetB : String → Store → Body
deriving Repr, DecidableEq

/-- An HTTP response: status code and JSON body. -/
structure Res where
  status : Nat
  body : Body
deriving Repr, DecidableEq

/-- JS truthiness of an optional string field: `undefined` and the empty
string are falsy, every other string is truthy. -/
def strTruthy : Option String → Bool
  | none => false
  | some s => !(s == "")

/-- Helper `getNextId(array)` of src/index.js lines 93-96: `1` for an empty
collection, otherwise `Math.max(...array.map(item => item.id)) + 1`.  It is
applied to the list of ids (the result of the `.map`). -/
def getNextId (ids : List Nat) : Nat :=
  match ids with
  | [] => 1
  | x :: xs => xs.foldl max x + 1

/-- Replace the first element satisfying `p` by its image under `f`,
leaving everything else in place: the effect of `data.xs[idx].field = v`
after `idx = data.xs.findIndex(p)`. -/
def updFirst (p : α → Bool) (f : α → α) : List α → List α
  | [] => []
  | x :: xs => if p x then f x :: xs else x :: updFirst p f xs

/-- Handler `POST /chats` (src/index.js lines 188-204). -/
def postChats (s : Store) (name : Option String) (shared : Option Bool) : Res × Store :=
  if strTruthy name then
    let newChat : Chat :=
      { id := getNextId (s.chats.map (fun c => c.id))
        index := (s.chats.length : Int)
        name := name.getD ""
        shared := shared.getD false }
    (⟨201, .chatB newChat⟩, { s with chats := s.chats ++ [newChat] })
  else
    (⟨400, .errB "Name is required"⟩, s)

/-- Apply the `PUT /chats/:id` body to a chat: each of the three fields is
overwritten exactly when it is present (not `undefined`) in the body. -/
def applyChatPatch (c : Chat) (name : Option String) (index : Option Int)
    (shared : Option Bool) : Chat :=
  { c with
    name := name.getD c.name
    index := index.getD c.index
    shared := shared.getD c.shared }

/-- Handler `PUT /chats/:id` (src/index.js lines 244-268). -/
def putChat (s : Store) (cid : Nat) (name : Option String) (index : Option Int)
    (shared : Option Bool) : Res × Store :=
  match s.chats.find? (fun c => c.id == cid) with
  | none => (⟨404, .errB "Chat not found"⟩, s)
  | some c =>
    (⟨200, .chatB (applyChatPatch c name index shared)⟩,
      { s with
        chats := updFirst (fun x => x.id == cid)
          (fun x => applyChatPatch x name index shared) s.chats })

/-- Handler `DELETE /chats/:id` (src/index.js lines 293-306): cascading
delete of the chat's messages, then splice of the chat itself. -/
def deleteChat (s : Store) (cid : Nat) : Res × Store :=
  match s.chats.find? (fun c => c.id == cid) with
  | none => (⟨404, .errB "Chat not found"⟩, s)
  | some _ =>
    (⟨204, .emptyB⟩,
      { chats := s.chats.eraseP (fun c => c.id == cid)
        messages := s.messages.filter (fun m => !(m.chat_id == cid)) })

/-- Handler `GET /chats/:id/messages` (src/index.js lines 339-348). -/
def getChatMessages (s : Store) (cid : Nat) : Res × Store :=
  if s.chats.any (fun c => c.id == cid) then
    (⟨200, .msgsB (s.messages.filter (fun m => m.chat_id == cid))⟩, s)
  else
    (⟨404, .errB "Chat not found"⟩, s)

/-- Handler `GET /chats/:id/messages/:messageId` (src/index.js lines 383-398). -/
def getChatMessage (s : Store) (cid mid : Nat) : Res × Store :=
  if s.chats.any (fun c => c.id == cid) then
    match s.messages.find? (fun m => m.id == mid && m.chat_id == cid) with
    | none => (⟨404, .errB "Message not found"⟩, s)
    | some m => (⟨200, .msgB m⟩, s)
  else
    (⟨404, .errB "Chat not found"⟩, s)

/-- The closed set of valid message types (src/index.js lines 469, 560). -/
def validTypes : List String := ["user", "thinking", "answer"]

/-- The 400 body produced when a message type is outside the closed set:
`Type must be one of: ${validTypes.join(', ')}`. -/
def typeErrMsg : String := "Type must be one of: " ++ String.intercalate ", " validTypes

/-- Handler `POST /chats/:id/messages` (src/index.js lines 451-486). -/
def postChatMessage (s : Store) (cid : Nat) (ty au co : Option String) : Res × Store :=
  if s.chats.any (fun c => c.id == cid) then
    if strTruthy ty && strTruthy au && strTruthy co then
      if validTypes.contains (ty.getD "") then
        let newMessage : Message :=
          { id := getNextId (s.messages.map (fun m => m.id))
            chat_id := cid
            type := ty.getD ""
            author := au.getD ""
            content := co.getD "" }
        (⟨201, .msgB newMessage⟩, { s with messages := s.messages ++ [newMessage] })
      else
        (⟨400, .errB typeErrMsg⟩, s)
    else
      (⟨400, .errB "type, author, and content are required"⟩, s)
  else
    (⟨404, .errB "Chat not found"⟩, s)

/-- Apply the `PUT /chats/:id/messages/:messageId` body to a message. -/
def applyMsgPatch (m : Message) (ty au co : Option String) : Message :=
  { m with
    type := ty.getD m.type
    author := au.getD m.author
    content := co.getD m.content }

/-- Handler `PUT /chats/:id/messages/:messageId` (src/index.js lines 540-578).
When the body carries a `type` it is validated against the closed set before
any field is written. -/
def putChatMessage (s : Store) (cid mid : Nat) (ty au co : Option String) : Res × Store :=
  if s.chats.any (fun c => c.id == cid) then
    match s.messages.find? (fun m => m.id == mid && m.chat_id == cid) with
    | none => (⟨404, .errB "Message not found"⟩, s)
    | some m =>
      if (match ty with | some t => !(validTypes.contains t) | none => false) then
        (⟨400, .errB typeErrMsg⟩, s)
      else
        (⟨200, .msgB (applyMsgPatch m ty au co)⟩,
          { s with
            messages := updFirst (fun x => x.id == mid && x.chat_id == cid)
              (fun x => applyMsgPatch x ty au co) s.messages })
  else
    (⟨404, .errB "Chat not found"⟩, s)

/-- Handler `DELETE /chats/:id/messages/:messageId` (src/index.js lines 609-628). -/
def deleteChatMessage (s : Store) (cid mid : Nat) : Res × Store :=
  if s.chats.any (fun c => c.id == cid) then
    match s.messages.find? (fun m => m.id == mid && m.chat_id == cid) with
    | none => (⟨404, .errB "Message not found"⟩, s)
    | some _ =>
      (⟨204, .emptyB⟩,
        { s with messages := s.messages.eraseP (fun m => m.id == mid && m.chat_id == cid) })
  else
    (⟨404, .errB "Chat not found"⟩, s)

/-- Seed loader `loadDefaultData` (src/index.js lines 77-87).  `seed` is the
outcome of reading and parsing `default.json`: `some d` when it succeeds and
`none` when the file is missing or malformed, in which case the catch branch
only logs and the store is left untouched. -/
def loadDefaultData (s : Store) (seed : Option Store) : Store :=
  match seed with
  | some d => d
  | none => s

/-- Handler `POST /reset` (src/index.js lines 679-682): re-run the seed
loader, then unconditionally answer 200 with a confirmation message and the
(possibly unchanged) current data. -/
def postReset (s : Store) (seed : Option Store) : Res × Store :=
  let s' := loadDefaultData s seed
  (⟨200, .resetB "Data reset to default" s'⟩, s')

/-- The store the process starts from before the initial `loadDefaultData()`
call (src/index.js lines 72-75). -/
def emptyStore : Store := { chats := [], messages := [] }

/-! ### Helper lemmas about `getNextId` and the list combinators -/

lemma le_foldl_max (xs : List Nat) (a : Nat) : a ≤ xs.foldl max a := by
  induction xs generalizing a with
  | nil => exact Nat.le_refl a
  | cons x xs ih => exact le_trans (le_max_left a x) (ih (max a x))

lemma mem_le_foldl_max (xs : List Nat) (a : Nat) : ∀ i ∈ xs, i ≤ xs.foldl max a := by
  induction xs generalizing a with
  | nil => intro i h; cases h
  | cons x xs ih =>
    intro i h
    rcases List.mem_cons.mp h with rfl | h
    · exact le_trans (le_max_right a i) (le_foldl_max xs (max a i))
    · exact ih (max a x) i h

lemma lt_getNextId (ids : List Nat) : ∀ i ∈ ids, i < getNextId ids := by
  intro i h
  match ids, h with
  | x :: xs, h =>
    rcases List.mem_cons.mp h with rfl | h
    · exact Nat.lt_succ_of_le (le_foldl_max xs i)
    · exact Nat.lt_succ_of_le (mem_le_foldl_max xs x i h)

lemma getNextId_not_mem (ids : List Nat) : getNextId ids ∉ ids := fun h =>
  Nat.lt_irrefl _ (lt_getNextId ids _ h)

lemma nodup_append_getNextId (ids : List Nat) (h : ids.Nodup) :
    (ids ++ [getNextId ids]).Nodup := by
  rw [List.nodup_append]
  exact ⟨h, List.nodup_singleton _, by
    intro a ha hb
    rw [List.mem_singleton] at hb
    exact Nat.lt_irrefl _ (hb ▸ lt_getNextId ids a ha)⟩

lemma updFirst_map_key (k : α → β) (p : α → Bool) (f : α → α)
    (hf : ∀ x, k (f x) = k x) : ∀ l : List α, (updFirst p f l).map k = l.map k := by
  intro l
  induction l with
  | nil => rfl
  | cons x xs ih =>
    by_cases hp : p x = true
    · simp [updFirst, hp, hf]
    · simp only [updFirst, hp]
      simp [ih]

/-- The first element whose key equals `k c` is `c` itself, when keys are
distinct and `c` is a member.  `p` is the Boolean key test of the handler. -/
lemma find_key_eq {α : Type u} (k : α → β) (p : α → Bool) (l : List α)
    (hnd : (l.map k).Nodup) (c : α) (hc : c ∈ l)
    (hp : ∀ x, p x = true ↔ k x = k c) :
    l.find? p = some c := by
  induction l with
  | nil => cases hc
  | cons x xs ih =>
    rw [List.map_cons, List.nodup_cons] at hnd
    rcases List.mem_cons.mp hc with rfl | hc
    · exact List.find?_cons_of_pos _ ((hp c).mpr rfl)
    · have hne : k x ≠ k c := fun h => hnd.1 (h ▸ List.mem_map_of_mem k hc)
      rw [List.find?_cons_of_neg _ (fun h => hne ((hp x).mp h))]
      exact ih hnd.2 hc

/-- Removing the first element with key `k c` removes exactly `c`, when keys
are distinct. -/
lemma eraseP_key_mem_iff {α : Type u} (k : α → β) (p : α → Bool) (l : List α)
    (hnd : (l.map k).Nodup) (c : α) (hc : c ∈ l)
    (hp : ∀ x, p x = true ↔ k x = k c) :
    ∀ d, d ∈ l.eraseP p ↔ (d ∈ l ∧ d ≠ c) := by
  induction l with
  | nil => cases hc
  | cons x xs ih =>
    rw [List.map_cons, List.nodup_cons] at hnd
    intro d
    rcases List.mem_cons.mp hc with rfl | hc
    · rw [List.eraseP_cons_of_pos ((hp c).mpr rfl)]
      constructor
      · intro hd
        exact ⟨List.mem_cons_of_mem _ hd, fun h =>
          hnd.1 (h ▸ List.mem_map_of_mem k hd)⟩
      · intro ⟨hd, hne⟩
        rcases List.mem_cons.mp hd with rfl | hd
        · exact absurd rfl hne
        · exact hd
    · have hne : k x ≠ k c := fun h => hnd.1 (h ▸ List.mem_map_of_mem k hc)
      rw [List.eraseP_cons_of_neg (fun h => hne ((hp x).mp h))]
      rw [List.mem_cons, ih hnd.2 hc d, List.mem_cons]
      constructor
      · intro h
        rcases h with rfl | ⟨hd, hdc⟩
        · exact ⟨Or.inl rfl, fun h => hne (congrArg k h)⟩
        · exact ⟨Or.inr hd, hdc⟩
      · intro ⟨hd, hdc⟩
        rcases hd with rfl | hd
        · exact Or.inl rfl
        · exact Or.inr ⟨hd, hdc⟩

/-- Updating-in-place the unique element with key `k c`: the patched element
is present, all elements with another key survive, nothing new beyond the
patched element appears, and the length is unchanged. -/
lemma updFirst_key_spec {α : Type u} (k : α → β) (p : α → Bool) (f : α → α)
    (l : List α) (hnd : (l.map k).Nodup) (c : α) (hc : c ∈ l)
    (hp : ∀ x, p x = true ↔ k x = k c) :
    f c ∈ updFirst p f l ∧
    (∀ d ∈ l, k d ≠ k c → d ∈ updFirst p f l) ∧
    (∀ d ∈ updFirst p f l, d = f c ∨ d ∈ l) ∧
    (updFirst p f l).length = l.length := by
  induction l with
  | nil => cases hc
  | cons x xs ih =>
    rw [List.map_cons, List.nodup_cons] at hnd
    rcases List.mem_cons.mp hc with rfl | hc
    · simp only [updFirst, if_pos ((hp c).mpr rfl)]
      refine ⟨List.mem_cons_self _ _, ?_, ?_, by simp⟩
      · intro d hd hne
        rcases List.mem_cons.mp hd with rfl | hd
        · exact absurd rfl hne
        · exact List.mem_cons_of_mem _ hd
      · intro d hd
        rcases List.mem_cons.mp hd with rfl | hd
        · exact Or.inl rfl
        · exact Or.inr (List.mem_cons_of_mem _ hd)
    · have hne : k x ≠ k c := fun h => hnd.1 (h ▸ List.mem_map_of_mem k hc)
      obtain ⟨ih1, ih2, ih3, ih4⟩ := ih hnd.2 hc
      have hpx : p x = false := by
        cases hpx : p x
        · rfl
        · exact absurd ((hp x).mp hpx) hne
      simp only [updFirst, hpx, if_neg Bool.false_ne_true]
      refine ⟨List.mem_cons_of_mem _ ih1, ?_, ?_, by simp [ih4]⟩
      · intro d hd hdne
        rcases List.mem_cons.mp hd with rfl | hd
        · exact List.mem_cons_self _ _
        · exact List.mem_cons_of_mem _ (ih2 d hd hdne)
      · intro d hd
        rcases List.mem_cons.mp hd with rfl | hd
        · exact Or.inr (List.mem_cons_self _ _)
        · rcases ih3 d hd with h | h
          · exact Or.inl h
          · exact Or.inr (List.mem_cons_of_mem _ h)

/-! ### Claim C1 -/

/-- Claim C1: `getNextId` returns 1 on an empty collection and, on a
nonempty collection, the maximum of the existing ids plus 1; in particular
on ids `[1, 3]` it returns 4 (max+1, not count+1). -/
theorem getNextId_spec :
    getNextId [] = 1 ∧
    (∀ (ids : List Nat) (m : Nat), ids.max? = some m → getNextId ids = m + 1) ∧
    getNextId [1, 3] = 4 := by
  refine ⟨rfl, ?_, rfl⟩
  intro ids m h
  match ids with
  | [] => cases h
  | x :: xs =>
    have : (x :: xs).max? = some (xs.foldl max x) := rfl
    rw [this] at h
    cases h
    rfl

/-- Witness for C1 at the concrete collection with ids `[1, 3]`, whose
maximum is 3. -/
theorem getNextId_spec_witness :
    ([1, 3] : List Nat).max? = some 3 ∧ getNextId [1, 3] = 3 + 1 :=
  ⟨rfl, getNextId_spec.2.1 [1, 3] 3 rfl⟩

/-! ### Claim C8 -/

/-- Claim C8: creating a chat with a (truthy) name appends a new chat whose
index equals the chat count at creation time, whose id is the store's next
id, whose shared flag defaults to false, and answers 201 with the new chat. -/
theorem insertChat_spec (s : Store) (nm : String) (sh : Option Bool) (h : nm ≠ "") :
    ∃ c : Chat,
      postChats s (some nm) sh = (⟨201, .chatB c⟩, ⟨s.chats ++ [c], s.messages⟩) ∧
      c.id = getNextId (s.chats.map (fun x => x.id)) ∧
      c.index = (s.chats.length : Int) ∧
      c.name = nm ∧
      c.shared = sh.getD false := by
  refine ⟨⟨getNextId (s.chats.map (fun x => x.id)), (s.chats.length : Int),
    nm, sh.getD false⟩, ?_, rfl, rfl, rfl, rfl⟩
  simp [postChats, strTruthy, h]

/-- Witness for C8: starting from the empty store, creating `{name: "A"}`
then `{name: "B"}` yields ids 1 and 2, index values 0 and 1, both with
status 201. -/
theorem insertChat_spec_witness :
    postChats ⟨[], []⟩ (some "A") none =
      (⟨201, .chatB ⟨1, 0, "A", false⟩⟩, ⟨[⟨1, 0, "A", false⟩], []⟩) ∧
    postChats ⟨[⟨1, 0, "A", false⟩], []⟩ (some "B") none =
      (⟨201, .chatB ⟨2, 1, "B", false⟩⟩, ⟨[⟨1, 0, "A", false⟩, ⟨2, 1, "B", false⟩], []⟩) := by
  obtain ⟨c1, e1, hid1, hix1, hnm1, hsh1⟩ :=
    insertChat_spec ⟨[], []⟩ "A" none (by decide)
  obtain ⟨c2, e2, hid2, hix2, hnm2, hsh2⟩ :=
    insertChat_spec ⟨[⟨1, 0, "A", false⟩], []⟩ "B" none (by decide)
  have hc1 : c1 = ⟨1, 0, "A", false⟩ := by
    cases c1
    simp_all [getNextId]
  have hc2 : c2 = ⟨2, 1, "B", false⟩ := by
    cases c2
    simp_all [getNextId]
  rw [hc1] at e1
  rw [hc2] at e2
  exact ⟨e1, e2⟩

/-! ### Claim C2 -/

/-- Claim C2: deleting an existing chat answers 204 with no body, removes
that chat (and nothing else) from the chat list, and removes exactly the
messages whose `chat_id` equals the deleted id: no message of the deleted
chat survives, every message of another chat survives, and the surviving
messages are a sublist (same records, same relative order) of the old ones. -/
theorem deleteChat_spec (s : Store) (c : Chat)
    (hnd : (s.chats.map (fun x => x.id)).Nodup) (hc : c ∈ s.chats) :
    (deleteChat s c.id).1 = ⟨204, .emptyB⟩ ∧
    (∀ d : Chat, d ∈ (deleteChat s c.id).2.chats ↔ (d ∈ s.chats ∧ d ≠ c)) ∧
    (∀ m ∈ (deleteChat s c.id).2.messages, m.chat_id ≠ c.id) ∧
    (∀ m ∈ s.messages, m.chat_id ≠ c.id → m ∈ (deleteChat s c.id).2.messages) ∧
    (deleteChat s c.id).2.messages.Sublist s.messages := by
  have hfind : s.chats.find? (fun x => x.id == c.id) = some c :=
    find_key_eq (fun x => x.id) _ s.chats hnd c hc (by intro x; simp)
  have hd : deleteChat s c.id =
      (⟨204, .emptyB⟩,
        ⟨s.chats.eraseP (fun x => x.id == c.id),
          s.messages.filter (fun m => !(m.chat_id == c.id))⟩) := by
    simp only [deleteChat, hfind]
  rw [hd]
  refine ⟨rfl, ?_, ?_, ?_, List.filter_sublist _⟩
  · exact eraseP_key_mem_iff (fun x => x.id) _ s.chats hnd c hc (by intro x; simp)
  · intro m hm
    have := (List.mem_filter.mp hm).2
    simpa using this
  · intro m hm hne
    exact List.mem_filter.mpr ⟨hm, by simpa using hne⟩

/-- Witness for C2: a store with chats 1 and 2 and one message per chat;
deleting chat 2 answers 204, keeps chat 1, drops the message of chat 2 and
keeps the message of chat 1. -/
theorem deleteChat_spec_witness :
    (deleteChat ⟨[⟨1, 0, "A", false⟩, ⟨2, 1, "B", false⟩],
        [⟨1, 1, "user", "u", "hi"⟩, ⟨2, 2, "user", "u", "yo"⟩]⟩ 2).1 =
      ⟨204, .emptyB⟩ ∧
    (⟨1, 0, "A", false⟩ : Chat) ∈
      (deleteChat ⟨[⟨1, 0, "A", false⟩, ⟨2, 1, "B", false⟩],
        [⟨1, 1, "user", "u", "hi"⟩, ⟨2, 2, "user", "u", "yo"⟩]⟩ 2).2.chats ∧
    (⟨2, 1, "B", false⟩ : Chat) ∉
      (deleteChat ⟨[⟨1, 0, "A", false⟩, ⟨2, 1, "B", false⟩],
        [⟨1, 1, "user", "u", "hi"⟩, ⟨2, 2, "user", "u", "yo"⟩]⟩ 2).2.chats ∧
    (⟨1, 1, "user", "u", "hi"⟩ : Message) ∈
      (deleteChat ⟨[⟨1, 0, "A", false⟩, ⟨2, 1, "B", false⟩],
        [⟨1, 1, "user", "u", "hi"⟩, ⟨2, 2, "user", "u", "yo"⟩]⟩ 2).2.messages ∧
    ∀ m ∈ (deleteChat ⟨[⟨1, 0, "A", false⟩, ⟨2, 1, "B", false⟩],
        [⟨1, 1, "user", "u", "hi"⟩, ⟨2, 2, "user", "u", "yo"⟩]⟩ 2).2.messages,
      m.chat_id ≠ 2 := by
  have h := deleteChat_spec
    ⟨[⟨1, 0, "A", false⟩, ⟨2, 1, "B", false⟩],
      [⟨1, 1, "user", "u", "hi"⟩, ⟨2, 2, "user", "u", "yo"⟩]⟩
    ⟨2, 1, "B", false⟩ (by decide) (by simp)
  obtain ⟨h1, h2, h3, h4, h5⟩ := h
  refine ⟨h1, ?_, ?_, ?_, h3⟩
  · exact (h2 _).mpr ⟨by simp, by decide⟩
  · intro hmem
    exact absurd ((h2 _).mp hmem).2 (by simp)
  · exact h4 _ (by simp) (by decide)

/-! ### Claim C4 -/

/-- Claim C4: updating an absent chat answers 404 with the store unchanged;
updating an existing chat answers 200 with a chat that keeps the old id,
whose name/index/shared are overwritten exactly when present in the patch
(`Option.getD`, so explicitly supplied falsy values like `0` or `false` are
applied), and the store keeps all other chats and all messages unchanged. -/
theorem updateChat_spec (s : Store) (cid : Nat) (nm : Option String)
    (ix : Option Int) (sh : Option Bool)
    (hnd : (s.chats.map (fun x => x.id)).Nodup) :
    ((∀ c ∈ s.chats, c.id ≠ cid) →
      putChat s cid nm ix sh = (⟨404, .errB "Chat not found"⟩, s)) ∧
    (∀ c ∈ s.chats, c.id = cid →
      ∃ c' : Chat,
        (putChat s cid nm ix sh).1 = ⟨200, .chatB c'⟩ ∧
        c'.id = c.id ∧
        c'.name = nm.getD c.name ∧
        c'.index = ix.getD c.index ∧
        c'.shared = sh.getD c.shared ∧
        (putChat s cid nm ix sh).2.messages = s.messages ∧
        c' ∈ (putChat s cid nm ix sh).2.chats ∧
        (∀ d ∈ s.chats, d.id ≠ cid → d ∈ (putChat s cid nm ix sh).2.chats) ∧
        (∀ d ∈ (putChat s cid nm ix sh).2.chats, d = c' ∨ d ∈ s.chats) ∧
        (putChat s cid nm ix sh).2.chats.length = s.chats.length) := by
  constructor
  · intro habs
    have hfind : s.chats.find? (fun c => c.id == cid) = none :=
      List.find?_eq_none.mpr (fun x hx => by simpa using habs x hx)
    simp [putChat, hfind]
  · intro c hc hcid
    subst hcid
    have hfind : s.chats.find? (fun x => x.id == c.id) = some c :=
      find_key_eq (fun x => x.id) _ s.chats hnd c hc (by intro x; simp)
    have hput : putChat s c.id nm ix sh =
        (⟨200, .chatB (applyChatPatch c nm ix sh)⟩,
          ⟨updFirst (fun x => x.id == c.id)
              (fun x => applyChatPatch x nm ix sh) s.chats,
            s.messages⟩) := by
      simp only [putChat, hfind]
    obtain ⟨h1, h2, h3, h4⟩ := updFirst_key_spec (fun x => x.id)
      (fun x => x.id == c.id) (fun x => applyChatPatch x nm ix sh)
      s.chats hnd c hc (by intro x; simp)
    rw [hput]
    exact ⟨applyChatPatch c nm ix sh, rfl, rfl, rfl, rfl, rfl, rfl, h1,
      fun d hd hne => h2 d hd hne, fun d hd => h3 d hd, h4⟩

/-- Witness for C4: on a store with the single chat `{id 1, index 0, name
"A", shared false}`, a PUT at id 2 answers 404 and changes nothing, and a
PUT at id 1 with the patch `{shared: true}` answers 200 with only the shared
flag changed. -/
theorem updateChat_spec_witness :
    putChat ⟨[⟨1, 0, "A", false⟩], []⟩ 2 none none (some true) =
      (⟨404, .errB "Chat not found"⟩, ⟨[⟨1, 0, "A", false⟩], []⟩) ∧
    (putChat ⟨[⟨1, 0, "A", false⟩], []⟩ 1 none none (some true)).1 =
      ⟨200, .chatB ⟨1, 0, "A", true⟩⟩ := by
  have h404 := (updateChat_spec ⟨[⟨1, 0, "A", false⟩], []⟩ 2 none none
    (some true) (by decide)).1 (by decide)
  have h200 := (updateChat_spec ⟨[⟨1, 0, "A", false⟩], []⟩ 1 none none
    (some true) (by decide)).2 ⟨1, 0, "A", false⟩ (by simp) rfl
  obtain ⟨c', e1, hid, hnm, hix, hsh, -, -, -, -, -⟩ := h200
  have hc : c' = ⟨1, 0, "A", true⟩ := by
    cases c'
    simp_all
  exact ⟨h404, hc ▸ e1⟩

/-! ### Claim C5 -/

/-- Claim C5: creating a message under a `chat_id` matching no existing chat
answers 404 and leaves the store unchanged, whatever the body contains. -/
theorem insertMessage_missing_chat (s : Store) (cid : Nat)
    (ty au co : Option String) (h : ∀ c ∈ s.chats, c.id ≠ cid) :
    postChatMessage s cid ty au co = (⟨404, .errB "Chat not found"⟩, s) := by
  have hany : s.chats.any (fun c => c.id == cid) = false := by
    rw [Bool.eq_false_iff]
    intro hab
    obtain ⟨x, hx, hxe⟩ := List.any_eq_true.mp hab
    exact h x hx (by simpa using hxe)
  simp [postChatMessage, hany]

/-- Witness for C5: posting a fully valid message body to the empty store
(no chat with id 1) answers 404 and stores nothing. -/
theorem insertMessage_missing_chat_witness :
    postChatMessage ⟨[], []⟩ 1 (some "user") (some "bob") (some "hi") =
      (⟨404, .errB "Chat not found"⟩, ⟨[], []⟩) :=
  insertMessage_missing_chat ⟨[], []⟩ 1 (some "user") (some "bob") (some "hi")
    (by simp)

/-! ### Claim C6 -/

/-- Counterexample to C6 as stated: a message creation with the invalid type
"bogus" but a missing author hits the required-fields check first, so the 400
body is the required-fields message, not the one listing the allowed type
values. -/
theorem messageType_validation_counterexample :
    postChatMessage ⟨[⟨1, 0, "A", false⟩], []⟩ 1 (some "bogus") none (some "hi") =
      (⟨400, .errB "type, author, and content are required"⟩,
        ⟨[⟨1, 0, "A", false⟩], []⟩) ∧
    "type, author, and content are required" ≠ typeErrMsg := by
  exact ⟨rfl, by decide⟩

/-- Claim C6 as amended: when the target chat exists and `type`, `author`
and `content` are all present and truthy, a creation whose type is outside
the closed set answers 400 with the message listing `user, thinking, answer`
and the store is unchanged; and when the chat and the addressed message both
exist, an update whose patch carries such a type answers the same 400 and
changes nothing. -/
theorem messageType_validation_amended :
    (∀ (s : Store) (cid : Nat) (t : String) (au co : Option String),
      (∃ c ∈ s.chats, c.id = cid) → t ≠ "" →
      strTruthy au = true → strTruthy co = true → t ∉ validTypes →
      postChatMessage s cid (some t) au co = (⟨400, .errB typeErrMsg⟩, s)) ∧
    (∀ (s : Store) (cid mid : Nat) (t : String) (au co : Option String),
      (∃ c ∈ s.chats, c.id = cid) →
      (∃ m ∈ s.messages, m.id = mid ∧ m.chat_id = cid) → t ∉ validTypes →
      putChatMessage s cid mid (some t) au co = (⟨400, .errB typeErrMsg⟩, s)) := by
  constructor
  · intro s cid t au co hchat ht hau hco htype
    obtain ⟨c, hc, hcid⟩ := hchat
    have hany : s.chats.any (fun x => x.id == cid) = true :=
      List.any_eq_true.mpr ⟨c, hc, by simpa using hcid⟩
    have hty : strTruthy (some t) = true := by
      simpa [strTruthy] using ht
    have hcont : validTypes.contains t = false := by
      simpa using htype
    simp [postChatMessage, hany, hty, hau, hco, hcont, htype]
  · intro s cid mid t au co hchat hmsg htype
    obtain ⟨c, hc, hcid⟩ := hchat
    have hany : s.chats.any (fun x => x.id == cid) = true :=
      List.any_eq_true.mpr ⟨c, hc, by simpa using hcid⟩
    obtain ⟨m, hm, hmid, hmcid⟩ := hmsg
    have hsome : (s.messages.find? (fun x => x.id == mid && x.chat_id == cid)).isSome := by
      rw [Option.isSome_iff_ne_none]
      intro hnone
      have hno := List.find?_eq_none.mp hnone m hm
      simp [hmid, hmcid] at hno
    obtain ⟨m', hm'⟩ := Option.isSome_iff_exists.mp hsome
    have hcont : validTypes.contains t = false := by
      simpa using htype
    simp [putChatMessage, hany, hm', hcont, htype]

/-- Witness for the amended C6: a store with chat 1 (and, for the update
half, message 1 in chat 1); creating or patching with type "bogus" answers
400 with the allowed-values message and leaves the store as it was. -/
theorem messageType_validation_amended_witness :
    postChatMessage ⟨[⟨1, 0, "A", false⟩], []⟩ 1 (some "bogus") (some "bob")
        (some "hi") =
      (⟨400, .errB typeErrMsg⟩, ⟨[⟨1, 0, "A", false⟩], []⟩) ∧
    putChatMessage ⟨[⟨1, 0, "A", false⟩], [⟨1, 1, "user", "bob", "hi"⟩]⟩ 1 1
        (some "bogus") none none =
      (⟨400, .errB typeErrMsg⟩,
        ⟨[⟨1, 0, "A", false⟩], [⟨1, 1, "user", "bob", "hi"⟩]⟩) := by
  refine ⟨messageType_validation_amended.1 _ 1 "bogus" _ _ ?_ (by decide) rfl rfl
    (by decide), messageType_validation_amended.2 _ 1 1 "bogus" _ _ ?_ ?_ (by decide)⟩
  · exact ⟨⟨1, 0, "A", false⟩, by simp, rfl⟩
  · exact ⟨⟨1, 0, "A", false⟩, by simp, rfl⟩
  · exact ⟨⟨1, 1, "user", "bob", "hi"⟩, by simp, rfl, rfl⟩

/-! ### Claim C7 -/

/-- Claim C7: when the seed load fails (missing or malformed default.json),
`POST /reset` still answers 200 with the confirmation message and the prior
store data, which is unchanged; and at process start a failed load leaves the
store at its empty default. -/
theorem reset_failure_silent :
    (∀ s : Store, postReset s none = (⟨200, .resetB "Data reset to default" s⟩, s)) ∧
    loadDefaultData emptyStore none = emptyStore :=
  ⟨fun _ => rfl, rfl⟩

/-! ### Claim C9 -/

/-- Claim C9: listing an existing chat's messages answers 200 with the
store unchanged, and the returned list is the filter of the message sequence
on that chat id: a sublist of the stored messages (so the original relative
order is preserved) containing a message iff it is stored and belongs to the
chat. -/
theorem listMessages_spec (s : Store) (cid : Nat)
    (h : ∃ c ∈ s.chats, c.id = cid) :
    ∃ ms : List Message,
      getChatMessages s cid = (⟨200, .msgsB ms⟩, s) ∧
      ms = s.messages.filter (fun m => m.chat_id == cid) ∧
      ms.Sublist s.messages ∧
      (∀ m : Message, m ∈ ms ↔ (m ∈ s.messages ∧ m.chat_id = cid)) := by
  obtain ⟨c, hc, hcid⟩ := h
  have hany : s.chats.any (fun x => x.id == cid) = true :=
    List.any_eq_true.mpr ⟨c, hc, by simpa using hcid⟩
  refine ⟨s.messages.filter (fun m => m.chat_id == cid), ?_, rfl,
    List.filter_sublist _, ?_⟩
  · simp [getChatMessages, hany]
  · intro m
    simp [List.mem_filter]

/-- Witness for C9: with chats 1 and 2 and three messages (two in chat 1,
one in chat 2), listing chat 1's messages returns exactly the two messages
of chat 1 in their original order, with status 200. -/
theorem listMessages_spec_witness :
    getChatMessages ⟨[⟨1, 0, "A", false⟩, ⟨2, 1, "B", false⟩],
        [⟨1, 1, "user", "u", "a"⟩, ⟨2, 2, "user", "u", "b"⟩,
          ⟨3, 1, "user", "u", "c"⟩]⟩ 1 =
      (⟨200, .msgsB [⟨1, 1, "user", "u", "a"⟩, ⟨3, 1, "user", "u", "c"⟩]⟩,
        ⟨[⟨1, 0, "A", false⟩, ⟨2, 1, "B", false⟩],
          [⟨1, 1, "user", "u", "a"⟩, ⟨2, 2, "user", "u", "b"⟩,
            ⟨3, 1, "user", "u", "c"⟩]⟩) := by
  obtain ⟨ms, he, hms, -, -⟩ := listMessages_spec
    ⟨[⟨1, 0, "A", false⟩, ⟨2, 1, "B", false⟩],
      [⟨1, 1, "user", "u", "a"⟩, ⟨2, 2, "user", "u", "b"⟩,
        ⟨3, 1, "user", "u", "c"⟩]⟩ 1 ⟨⟨1, 0, "A", false⟩, by simp, rfl⟩
  subst hms
  rw [he]
  rfl

/-! ### Claim C10 -/

/-- Claim C10: when chat `cid` exists and the message carrying id `mid`
belongs to a different chat, the nested GET, PUT and DELETE routes for
`/chats/cid/messages/mid` all answer 404 with body error "Message not found"
and leave the store unchanged, even though a message with that id exists. -/
theorem nestedRoute_message_scoping (s : Store) (cid mid : Nat) (M : Message)
    (hnd : (s.messages.map (fun x => x.id)).Nodup)
    (hchat : ∃ c ∈ s.chats, c.id = cid)
    (hM : M ∈ s.messages) (hMid : M.id = mid) (hMcid : M.chat_id ≠ cid) :
    getChatMessage s cid mid = (⟨404, .errB "Message not found"⟩, s) ∧
    (∀ ty au co : Option String, putChatMessage s cid mid ty au co =
      (⟨404, .errB "Message not found"⟩, s)) ∧
    deleteChatMessage s cid mid = (⟨404, .errB "Message not found"⟩, s) := by
  obtain ⟨c, hc, hcid⟩ := hchat
  have hany : s.chats.any (fun x => x.id == cid) = true :=
    List.any_eq_true.mpr ⟨c, hc, by simpa using hcid⟩
  have hfind : s.messages.find? (fun m => m.id == mid && m.chat_id == cid) = none := by
    rw [List.find?_eq_none]
    intro m hm hpm
    simp only [Bool.and_eq_true, beq_iff_eq] at hpm
    have hmM : m = M := List.inj_on_of_nodup_map hnd hm hM (by rw [hpm.1, hMid])
    exact hMcid (hmM ▸ hpm.2)
  refine ⟨?_, ?_, ?_⟩
  · simp [getChatMessage, hany, hfind]
  · intro ty au co
    simp [putChatMessage, hany, hfind]
  · simp [deleteChatMessage, hany, hfind]

/-- Witness for C10: chats 1 and 2, and a single message with id 1 belonging
to chat 2; addressing that message through chat 1's nested routes answers
404 "Message not found" on GET, PUT and DELETE, with the store unchanged. -/
theorem nestedRoute_message_scoping_witness :
    getChatMessage ⟨[⟨1, 0, "A", false⟩, ⟨2, 1, "B", false⟩],
        [⟨1, 2, "user", "u", "x"⟩]⟩ 1 1 =
      (⟨404, .errB "Message not found"⟩,
        ⟨[⟨1, 0, "A", false⟩, ⟨2, 1, "B", false⟩], [⟨1, 2, "user", "u", "x"⟩]⟩) ∧
    putChatMessage ⟨[⟨1, 0, "A", false⟩, ⟨2, 1, "B", false⟩],
        [⟨1, 2, "user", "u", "x"⟩]⟩ 1 1 (some "user") none none =
      (⟨404, .errB "Message not found"⟩,
        ⟨[⟨1, 0, "A", false⟩, ⟨2, 1, "B", false⟩], [⟨1, 2, "user", "u", "x"⟩]⟩) ∧
    deleteChatMessage ⟨[⟨1, 0, "A", false⟩, ⟨2, 1, "B", false⟩],
        [⟨1, 2, "user", "u", "x"⟩]⟩ 1 1 =
      (⟨404, .errB "Message not found"⟩,
        ⟨[⟨1, 0, "A", false⟩, ⟨2, 1, "B", false⟩], [⟨1, 2, "user", "u", "x"⟩]⟩) := by
  obtain ⟨h1, h2, h3⟩ := nestedRoute_message_scoping
    ⟨[⟨1, 0, "A", false⟩, ⟨2, 1, "B", false⟩], [⟨1, 2, "user", "u", "x"⟩]⟩
    1 1 ⟨1, 2, "user", "u", "x"⟩ (by decide)
    ⟨⟨1, 0, "A", false⟩, by simp, rfl⟩ (by simp) rfl (by decide)
  exact ⟨h1, h2 (some "user") none none, h3⟩

/-! ### Claim C3 -/

/-- Ids are unique within each collection of the store. -/
def UniqueIds (s : Store) : Prop :=
  (s.chats.map (fun c => c.id)).Nodup ∧ (s.messages.map (fun m => m.id)).Nodup

/-- One CRUD mutation of the store: the successor state produced by one of
the six mutating handlers, at arbitrary route parameters and body. -/
inductive Step : Store → Store → Prop
  | chatCreate (s : Store) (nm : Option String) (sh : Option Bool) :
      Step s (postChats s nm sh).2
  | chatUpdate (s : Store) (cid : Nat) (nm : Option String) (ix : Option Int)
      (sh : Option Bool) : Step s (putChat s cid nm ix sh).2
  | chatDelete (s : Store) (cid : Nat) : Step s (deleteChat s cid).2
  | msgCreate (s : Store) (cid : Nat) (ty au co : Option String) :
      Step s (postChatMessage s cid ty au co).2
  | msgUpdate (s : Store) (cid mid : Nat) (ty au co : Option String) :
      Step s (putChatMessage s cid mid ty au co).2
  | msgDelete (s : Store) (cid mid : Nat) : Step s (deleteChatMessage s cid mid).2

/-- A store is reachable from `init` by a sequence of CRUD mutations. -/
def Reachable (init s : Store) : Prop := Relation.ReflTransGen Step init s

lemma uniqueIds_postChats (s : Store) (nm : Option String) (sh : Option Bool)
    (h : UniqueIds s) : UniqueIds (postChats s nm sh).2 := by
  unfold postChats
  split
  · refine ⟨?_, h.2⟩
    show (List.map (fun c => c.id) (s.chats ++
      [⟨getNextId (s.chats.map (fun c => c.id)), (s.chats.length : Int),
        nm.getD "", sh.getD false⟩])).Nodup
    rw [List.map_append]
    exact nodup_append_getNextId _ h.1
  · exact h

lemma uniqueIds_putChat (s : Store) (cid : Nat) (nm : Option String)
    (ix : Option Int) (sh : Option Bool) (h : UniqueIds s) :
    UniqueIds (putChat s cid nm ix sh).2 := by
  unfold putChat
  split
  · exact h
  · refine ⟨?_, h.2⟩
    show (List.map (fun c => c.id) (updFirst (fun x => x.id == cid)
      (fun x => applyChatPatch x nm ix sh) s.chats)).Nodup
    rw [updFirst_map_key (fun x : Chat => x.id) (fun x => x.id == cid)
      (fun x => applyChatPatch x nm ix sh) (fun x => rfl) s.chats]
    exact h.1

lemma uniqueIds_deleteChat (s : Store) (cid : Nat) (h : UniqueIds s) :
    UniqueIds (deleteChat s cid).2 := by
  unfold deleteChat
  split
  · exact h
  · exact ⟨List.Nodup.sublist (List.Sublist.map _ (List.eraseP_sublist _)) h.1,
      List.Nodup.sublist (List.Sublist.map _ (List.filter_sublist _)) h.2⟩

lemma uniqueIds_postChatMessage (s : Store) (cid : Nat) (ty au co : Option String)
    (h : UniqueIds s) : UniqueIds (postChatMessage s cid ty au co).2 := by
  unfold postChatMessage
  split
  · split
    · split
      · refine ⟨h.1, ?_⟩
        show (List.map (fun m => m.id) (s.messages ++
          [⟨getNextId (s.messages.map (fun m => m.id)), cid, ty.getD "",
            au.getD "", co.getD ""⟩])).Nodup
        rw [List.map_append]
        exact nodup_append_getNextId _ h.2
      · exact h
    · exact h
  · exact h

lemma uniqueIds_putChatMessage (s : Store) (cid mid : Nat)
    (ty au co : Option String) (h : UniqueIds s) :
    UniqueIds (putChatMessage s cid mid ty au co).2 := by
  unfold putChatMessage
  split
  · split
    · exact h
    · split
      · exact h
      · refine ⟨h.1, ?_⟩
        show (List.map (fun m => m.id) (updFirst
          (fun x => x.id == mid && x.chat_id == cid)
          (fun x => applyMsgPatch x ty au co) s.messages)).Nodup
        rw [updFirst_map_key (fun x : Message => x.id)
          (fun x => x.id == mid && x.chat_id == cid)
          (fun x => applyMsgPatch x ty au co) (fun x => rfl) s.messages]
        exact h.2
  · exact h

lemma uniqueIds_deleteChatMessage (s : Store) (cid mid : Nat) (h : UniqueIds s) :
    UniqueIds (deleteChatMessage s cid mid).2 := by
  unfold deleteChatMessage
  split
  · split
    · exact h
    · exact ⟨h.1,
        List.Nodup.sublist (List.Sublist.map _ (List.eraseP_sublist _)) h.2⟩
  · exact h

lemma uniqueIds_step (a b : Store) (hstep : Step a b) (h : UniqueIds a) :
    UniqueIds b := by
  cases hstep with
  | chatCreate nm sh => exact uniqueIds_postChats a nm sh h
  | chatUpdate cid nm ix sh => exact uniqueIds_putChat a cid nm ix sh h
  | chatDelete cid => exact uniqueIds_deleteChat a cid h
  | msgCreate cid ty au co => exact uniqueIds_postChatMessage a cid ty au co h
  | msgUpdate cid mid ty au co => exact uniqueIds_putChatMessage a cid mid ty au co h
  | msgDelete cid mid => exact uniqueIds_deleteChatMessage a cid mid h

/-- Counterexample to C3 as stated: starting from the empty store, create
chats "A" and "B" (assigned ids 1 and 2), delete chat 2, then create chat
"C": the new chat is assigned id 2 again, so an id of a deleted record is
reassigned (the max+1 policy is not monotonic). -/
theorem idReuse_counterexample :
    (postChats ⟨[], []⟩ (some "A") none).2 = ⟨[⟨1, 0, "A", false⟩], []⟩ ∧
    (postChats ⟨[⟨1, 0, "A", false⟩], []⟩ (some "B") none).2 =
      ⟨[⟨1, 0, "A", false⟩, ⟨2, 1, "B", false⟩], []⟩ ∧
    (deleteChat ⟨[⟨1, 0, "A", false⟩, ⟨2, 1, "B", false⟩], []⟩ 2).2 =
      ⟨[⟨1, 0, "A", false⟩], []⟩ ∧
    (postChats ⟨[⟨1, 0, "A", false⟩], []⟩ (some "C") none).2 =
      ⟨[⟨1, 0, "A", false⟩, ⟨2, 1, "C", false⟩], []⟩ := by
  exact ⟨rfl, rfl, by decide, rfl⟩

/-- Claim C3 as amended: in every store reachable from an initial state with
unique ids through the CRUD operations, ids stay unique within their
collection; the never-reused part of the claim is dropped, since the max+1
policy reassigns the id of a deleted maximal record. -/
theorem uniqueIds_invariant (init s : Store) (h0 : UniqueIds init)
    (h : Reachable init s) : UniqueIds s := by
  unfold Reachable at h
  induction h with
  | refl => exact h0
  | tail _ hstep ih => exact uniqueIds_step _ _ hstep ih

/-- Witness for the amended C3: the empty store has unique ids, and so does
the store after one chat creation, reached by a single CRUD step. -/
theorem uniqueIds_invariant_witness :
    UniqueIds ⟨[], []⟩ ∧ UniqueIds (postChats ⟨[], []⟩ (some "A") none).2 :=
  ⟨⟨List.nodup_nil, List.nodup_nil⟩,
    uniqueIds_invariant ⟨[], []⟩ _ ⟨List.nodup_nil, List.nodup_nil⟩
      (Relation.ReflTransGen.tail Relation.ReflTransGen.refl
        (Step.chatCreate ⟨[], []⟩ (some "A") none))⟩

end LiveCode
